import Mathlib

/-
Verification of the Pi Pico temperature logger (src/main.py and
src/temperature_logger.py) against its natural-language specification.

The embedding below translates the program's pure logic into Lean:
temperatures are rationals (the classifier only compares them, so exact
arithmetic is faithful for every input the claims mention), Python lists
become Lean lists, strings of the request parser become lists of
characters, and statements that can raise (`on_item[0]` on an empty
list, attribute access on an `int`) return `Except`, with the error
payload carrying the state as mutated up to the raise.
-/

namespace PicoTemp

/-- Decidable equality for `Except`, so that concrete runs of the
fallible operations can be evaluated inside proofs. -/
instance {ε α : Type} [DecidableEq ε] [DecidableEq α] : DecidableEq (Except ε α) := fun x y =>
  match x, y with
  | .error a, .error b =>
    if h : a = b then .isTrue (by simp [h]) else .isFalse (by simp [h])
  | .ok a, .ok b =>
    if h : a = b then .isTrue (by simp [h]) else .isFalse (by simp [h])
  | .error _, .ok _ => .isFalse (by simp)
  | .ok _, .error _ => .isFalse (by simp)

/-- Threshold table of `cache_temp` (src/main.py lines 156-162 and
src/temperature_logger.py lines 155-161): five `(low, high)` pairs. -/
def thresholds : List (ℚ × ℚ) := [(-40, 32), (32, 37), (37, 60), (60, 85), (86, 176)]

/-- Test one band: the Python chained comparison
`range[0] < self.temp_f_latest < range[1]` (both strict). -/
def in_band (f : ℚ) (r : ℚ × ℚ) : Bool := decide (r.1 < f) && decide (f < r.2)

/-- The filtered list `on_item = list(filter(lambda range: ..., thresholds))`. -/
def on_item (f : ℚ) : List (ℚ × ℚ) := thresholds.filter (in_band f)

/-- The classification `on_idx = thresholds.index(on_item[0])`.
`on_item[0]` raises `IndexError` when the filter matched nothing, which
this embedding renders as `none`; otherwise the result is the index of
the first matching pair in `thresholds`. -/
def on_idx? (f : ℚ) : Option ℕ := (on_item f).head?.map (fun it => thresholds.indexOf it)

/-- Mutable state of `PicoServer` touched by the sampling duty, plus the
five band-indicator outputs (module-level `Pin`s, all initialised to 0):
`temp_f_latest`, `temp_f_min`, `temp_f_max`, `thresh_times`, and the
band led values in `BandTable` order. -/
structure PicoState where
  temp_f_latest : ℚ
  temp_f_min : ℚ
  temp_f_max : ℚ
  thresh_times : List ℕ
  thresh_led_states : List Bool
deriving DecidableEq, Repr

/-- Initial state: class attributes of `PicoServer` (src/main.py lines
74-81) and the led initialisation at module load (lines 38-42). -/
def initState : PicoState :=
  { temp_f_latest := 0
    temp_f_min := 1000
    temp_f_max := 0
    thresh_times := [0, 0, 0, 0, 0]
    thresh_led_states := [false, false, false, false, false] }

/-- One iteration of `cache_temp` in src/temperature_logger.py lines
140-169, applied to an already-read fahrenheit value `f`: update
`temp_f_latest`, `temp_f_min`, `temp_f_max`; compute `on_item`; then
`on_item[0]` either raises `IndexError` (the `.error` branch, whose
payload is the state as mutated so far — the loop over the leds and
`thresh_times` never runs) or yields the band index, after which
`thresh_leds[idx].value(idx==on_idx)` sets every led and the matched
entry of `thresh_times` is incremented by 1. -/
def cache_temp_tick (s : PicoState) (f : ℚ) : Except PicoState PicoState :=
  let s1 : PicoState :=
    { s with temp_f_latest := f
             temp_f_min := min s.temp_f_min f
             temp_f_max := max s.temp_f_max f }
  match on_idx? f with
  | none => .error s1
  | some on_idx =>
      .ok { s1 with
            thresh_led_states := (List.range 5).map (fun idx => decide (idx = on_idx))
            thresh_times := s1.thresh_times.set on_idx (s1.thresh_times.getD on_idx 0 + 1) }

/-- Run the `while True` loop of `cache_temp` over a finite list of
fahrenheit readings, one reading per tick; an `IndexError` kills the
task, so no further tick happens after a raise. -/
def cache_temp_run : PicoState → List ℚ → Except PicoState PicoState
  | s, [] => .ok s
  | s, f :: fs =>
    match cache_temp_tick s f with
    | .ok s1 => cache_temp_run s1 fs
    | .error e => .error e

/-- C2. For every fahrenheit value strictly inside one band's open
interval of the five-entry threshold table, the classifier returns
exactly that band's index (the first match in table order under the
strict test `low < fahrenheit < high`). -/
theorem C2_interior_value_classifies_to_band :
    ∀ f : ℚ,
      ((-40 < f ∧ f < 32) → on_idx? f = some 0) ∧
      ((32 < f ∧ f < 37) → on_idx? f = some 1) ∧
      ((37 < f ∧ f < 60) → on_idx? f = some 2) ∧
      ((60 < f ∧ f < 85) → on_idx? f = some 3) ∧
      ((86 < f ∧ f < 176) → on_idx? f = some 4) := by
  intro f
  refine ⟨?_, ?_, ?_, ?_, ?_⟩
  · rintro ⟨h1, h2⟩
    have e0 : in_band f (-40, 32) = true := by
      simp only [in_band, Bool.and_eq_true, decide_eq_true_eq]
      exact ⟨h1, h2⟩
    simp only [on_idx?, on_item, thresholds, List.filter_cons, e0, if_true,
      List.head?_cons, Option.map_some]
    decide
  · rintro ⟨h1, h2⟩
    have e0 : in_band f (-40, 32) = false := by
      have n0 : ¬ (f < 32) := by linarith
      simp [in_band, n0]
    have e1 : in_band f (32, 37) = true := by
      simp only [in_band, Bool.and_eq_true, decide_eq_true_eq]
      exact ⟨h1, h2⟩
    simp only [on_idx?, on_item, thresholds, List.filter_cons, e0, e1,
      Bool.false_eq_true, if_false, if_true, List.head?_cons, Option.map_some]
    decide
  · rintro ⟨h1, h2⟩
    have e0 : in_band f (-40, 32) = false := by
      have n0 : ¬ (f < 32) := by linarith
      simp [in_band, n0]
    have e1 : in_band f (32, 37) = false := by
      have n1 : ¬ (f < 37) := by linarith
      simp [in_band, n1]
    have e2 : in_band f (37, 60) = true := by
      simp only [in_band, Bool.and_eq_true, decide_eq_true_eq]
      exact ⟨h1, h2⟩
    simp only [on_idx?, on_item, thresholds, List.filter_cons, e0, e1, e2,
      Bool.false_eq_true, if_false, if_true, List.head?_cons, Option.map_some]
    decide
  · rintro ⟨h1, h2⟩
    have e0 : in_band f (-40, 32) = false := by
      have n0 : ¬ (f < 32) := by linarith
      simp [in_band, n0]
    have e1 : in_band f (32, 37) = false := by
      have n1 : ¬ (f < 37) := by linarith
      simp [in_band, n1]
    have e2 : in_band f (37, 60) = false := by
      have n2 : ¬ (f < 60) := by linarith
      simp [in_band, n2]
    have e3 : in_band f (60, 85) = true := by
      simp only [in_band, Bool.and_eq_true, decide_eq_true_eq]
      exact ⟨h1, h2⟩
    simp only [on_idx?, on_item, thresholds, List.filter_cons, e0, e1, e2, e3,
      Bool.false_eq_true, if_false, if_true, List.head?_cons, Option.map_some]
    decide
  · rintro ⟨h1, h2⟩
    have e0 : in_band f (-40, 32) = false := by
      have n0 : ¬ (f < 32) := by linarith
      simp [in_band, n0]
    have e1 : in_band f (32, 37) = false := by
      have n1 : ¬ (f < 37) := by linarith
      simp [in_band, n1]
    have e2 : in_band f (37, 60) = false := by
      have n2 : ¬ (f < 60) := by linarith
      simp [in_band, n2]
    have e3 : in_band f (60, 85) = false := by
      have n3 : ¬ (f < 85) := by linarith
      simp [in_band, n3]
    have e4 : in_band f (86, 176) = true := by
      simp only [in_band, Bool.and_eq_true, decide_eq_true_eq]
      exact ⟨h1, h2⟩
    simp only [on_idx?, on_item, thresholds, List.filter_cons, e0, e1, e2, e3, e4,
      Bool.false_eq_true, if_false, if_true, List.head?_cons, Option.map_some]
    decide

/-- C2 witness: the theorem applied at the concrete reading 70 °F,
which lies strictly inside band 3 = (60, 85). -/
theorem C2_interior_value_classifies_to_band_witness : on_idx? 70 = some 3 :=
  (C2_interior_value_classifies_to_band 70).2.2.2.1 ⟨by norm_num, by norm_num⟩

/-- C1 counterexample. At a reading of exactly 85 °F (and likewise
86 °F) the classification step of `cache_temp` does not complete
without error: `on_item` is empty, so `on_item[0]` raises `IndexError`
(the `.error` result below), killing the sampling task, rather than
returning "none" and finishing the tick normally. -/
theorem C1_counterexample :
    cache_temp_tick initState 85 =
      .error { temp_f_latest := 85, temp_f_min := 85, temp_f_max := 85,
               thresh_times := [0, 0, 0, 0, 0],
               thresh_led_states := [false, false, false, false, false] } ∧
    cache_temp_tick initState 86 =
      .error { temp_f_latest := 86, temp_f_min := 86, temp_f_max := 86,
               thresh_times := [0, 0, 0, 0, 0],
               thresh_led_states := [false, false, false, false, false] } := by
  constructor <;> decide

/-- C1 amended. For a fahrenheit reading of exactly 85 or exactly 86
(the gap between the fourth and fifth bands) the classifier's filter
matches no band, and no band indicator and no entry of `thresh_times`
is written before the step aborts; but instead of returning "none" and
completing without error, the step raises an `IndexError` selecting the
first element of the empty filter result, and the sampling task dies. -/
theorem C1_gap_reading_raises_index_error :
    on_idx? 85 = none ∧ on_idx? 86 = none ∧
    ∀ s : PicoState,
      (∃ e, cache_temp_tick s 85 = .error e ∧
            e.thresh_times = s.thresh_times ∧
            e.thresh_led_states = s.thresh_led_states) ∧
      (∃ e, cache_temp_tick s 86 = .error e ∧
            e.thresh_times = s.thresh_times ∧
            e.thresh_led_states = s.thresh_led_states) := by
  refine ⟨by decide, by decide, fun s => ⟨?_, ?_⟩⟩
  · refine ⟨{ s with
        temp_f_latest := 85
        temp_f_min := min s.temp_f_min 85
        temp_f_max := max s.temp_f_max 85 }, ?_, rfl, rfl⟩
    simp [cache_temp_tick, show on_idx? 85 = none from by decide]
  · refine ⟨{ s with
        temp_f_latest := 86
        temp_f_min := min s.temp_f_min 86
        temp_f_max := max s.temp_f_max 86 }, ?_, rfl, rfl⟩
    simp [cache_temp_tick, show on_idx? 86 = none from by decide]

/-- C10. Every boundary value of the threshold table — the interior
boundaries 32, 37 and 60 just like the documented 85-86 gap and the
outer bounds -40 and 176 — matches no band under the strict tests, and
a reading exactly at an interior boundary takes the same no-match path
as 85 and 86: the tick ends in the `IndexError` branch instead of a
normal completion. -/
theorem C10_boundary_values_unclassified :
    on_idx? (-40) = none ∧ on_idx? 32 = none ∧ on_idx? 37 = none ∧
    on_idx? 60 = none ∧ on_idx? 85 = none ∧ on_idx? 86 = none ∧
    on_idx? 176 = none ∧
    ∀ s : PicoState,
      (cache_temp_tick s 32).toOption = none ∧
      (cache_temp_tick s 37).toOption = none ∧
      (cache_temp_tick s 60).toOption = none ∧
      (cache_temp_tick s 85).toOption = none ∧
      (cache_temp_tick s 86).toOption = none := by
  refine ⟨by decide, by decide, by decide, by decide, by decide, by decide, by decide,
    fun s => ⟨?_, ?_, ?_, ?_, ?_⟩⟩
  · simp [cache_temp_tick, Except.toOption, show on_idx? 32 = none from by decide]
  · simp [cache_temp_tick, Except.toOption, show on_idx? 37 = none from by decide]
  · simp [cache_temp_tick, Except.toOption, show on_idx? 60 = none from by decide]
  · simp [cache_temp_tick, Except.toOption, show on_idx? 85 = none from by decide]
  · simp [cache_temp_tick, Except.toOption, show on_idx? 86 = none from by decide]

/-- Fields of the state after a successfully classified tick: `latest`
is the reading, `min`/`max` are folded with the previous extrema
(src/main.py lines 144-146). -/
theorem tick_ok_fields {s s1 : PicoState} {f : ℚ} (h : cache_temp_tick s f = .ok s1) :
    s1.temp_f_latest = f ∧ s1.temp_f_min = min s.temp_f_min f ∧
    s1.temp_f_max = max s.temp_f_max f := by
  unfold cache_temp_tick at h
  cases h2 : on_idx? f with
  | none => rw [h2] at h; simp at h
  | some i =>
    rw [h2] at h
    simp only [Except.ok.injEq] at h
    subst h
    exact ⟨rfl, rfl, rfl⟩

/-- Fields of the state carried by the `IndexError` raise: the
`latest`/`min`/`max` writes precede the raising statement, so they are
already applied when the task dies. -/
theorem tick_error_fields {s e : PicoState} {f : ℚ} (h : cache_temp_tick s f = .error e) :
    e.temp_f_latest = f ∧ e.temp_f_min = min s.temp_f_min f ∧
    e.temp_f_max = max s.temp_f_max f := by
  unfold cache_temp_tick at h
  cases h2 : on_idx? f with
  | none =>
    rw [h2] at h
    simp only [Except.error.injEq] at h
    subst h
    exact ⟨rfl, rfl, rfl⟩
  | some i => rw [h2] at h; simp at h

/-- Running extrema over a whole run: after any run of ticks that all
classified successfully, `temp_f_min`/`temp_f_max` are the fold of
`min`/`max` over the readings starting from the initial values. -/
theorem run_ok_minmax :
    ∀ (fs : List ℚ) (s0 s : PicoState), cache_temp_run s0 fs = .ok s →
      s.temp_f_min = fs.foldl min s0.temp_f_min ∧
      s.temp_f_max = fs.foldl max s0.temp_f_max := by
  intro fs
  induction fs with
  | nil =>
    intro s0 s h
    simp only [cache_temp_run, Except.ok.injEq] at h
    subst h
    exact ⟨rfl, rfl⟩
  | cons f fs ih =>
    intro s0 s h
    simp only [cache_temp_run] at h
    cases h1 : cache_temp_tick s0 f with
    | error e => rw [h1] at h; simp at h
    | ok s1 =>
      rw [h1] at h
      obtain ⟨-, hmin, hmax⟩ := tick_ok_fields h1
      have := ih s1 s h
      simp only [List.foldl_cons, ← hmin, ← hmax]
      exact this

/-- C3 counterexample. A single sampling tick whose fahrenheit reading
is -10 completes (band 0 matches), yet `temp_f_max` remains the
sentinel 0, which is not the maximum (-10) of the one value seen: the
sentinel does survive as the reported extremum whenever every reading
is negative. -/
theorem C3_counterexample :
    cache_temp_run initState [-10] =
      .ok { temp_f_latest := -10, temp_f_min := -10, temp_f_max := 0,
            thresh_times := [1, 0, 0, 0, 0],
            thresh_led_states := [true, false, false, false, false] } ∧
    (0 : ℚ) ≠ -10 := by
  constructor <;> decide

/-- C3 amended. After any N ≥ 0 ticks that complete, `temp_f_min`
equals the minimum of the sentinel 1000 and all N fahrenheit values,
and `temp_f_max` equals the maximum of the sentinel 0 and all N values;
the sentinel itself survives as the reported extremum when every
reading is above 1000 (for min) or below 0 (for max), so the claim's
"the sentinels never survive" holds only for streams that cross those
sentinels. -/
theorem C3_minmax_are_sentinel_folds :
    ∀ (fs : List ℚ) (s : PicoState), cache_temp_run initState fs = .ok s →
      s.temp_f_min = fs.foldl min 1000 ∧ s.temp_f_max = fs.foldl max 0 :=
  fun fs s h => run_ok_minmax fs initState s h

/-- C3 witness: the amended theorem applied to the one-tick run with
reading 70 °F. -/
theorem C3_minmax_are_sentinel_folds_witness :
    ({ temp_f_latest := 70, temp_f_min := 70, temp_f_max := 70,
       thresh_times := [0, 0, 0, 1, 0],
       thresh_led_states := [false, false, false, true, false] } : PicoState).temp_f_min
        = [(70 : ℚ)].foldl min 1000 ∧
    ({ temp_f_latest := 70, temp_f_min := 70, temp_f_max := 70,
       thresh_times := [0, 0, 0, 1, 0],
       thresh_led_states := [false, false, false, true, false] } : PicoState).temp_f_max
        = [(70 : ℚ)].foldl max 0 :=
  C3_minmax_are_sentinel_folds [70] _ (by decide)

/-- C7. Once at least one sampling tick has run, the shared state
satisfies `temp_f_min ≤ temp_f_latest ≤ temp_f_max`, and every
subsequent tick — whether it classifies or dies in the 85-86 gap —
re-establishes the ordering, regardless of the fahrenheit value read. -/
theorem C7_min_le_latest_le_max :
    (∀ (s r : PicoState) (f : ℚ),
        (cache_temp_tick s f = .ok r ∨ cache_temp_tick s f = .error r) →
        r.temp_f_min ≤ r.temp_f_latest ∧ r.temp_f_latest ≤ r.temp_f_max) ∧
    (∀ (fs : List ℚ) (s : PicoState), cache_temp_run initState fs = .ok s → fs ≠ [] →
        s.temp_f_min ≤ s.temp_f_latest ∧ s.temp_f_latest ≤ s.temp_f_max) := by
  have single : ∀ (s r : PicoState) (f : ℚ),
      (cache_temp_tick s f = .ok r ∨ cache_temp_tick s f = .error r) →
      r.temp_f_min ≤ r.temp_f_latest ∧ r.temp_f_latest ≤ r.temp_f_max := by
    rintro s r f (h | h)
    · obtain ⟨hl, hmin, hmax⟩ := tick_ok_fields h
      rw [hl, hmin, hmax]
      exact ⟨min_le_right _ _, le_max_right _ _⟩
    · obtain ⟨hl, hmin, hmax⟩ := tick_error_fields h
      rw [hl, hmin, hmax]
      exact ⟨min_le_right _ _, le_max_right _ _⟩
  refine ⟨single, ?_⟩
  have general : ∀ (fs : List ℚ) (s0 s : PicoState), cache_temp_run s0 fs = .ok s →
      fs ≠ [] → s.temp_f_min ≤ s.temp_f_latest ∧ s.temp_f_latest ≤ s.temp_f_max := by
    intro fs
    induction fs with
    | nil => intro s0 s _ hne; exact absurd rfl hne
    | cons f fs ih =>
      intro s0 s h _
      simp only [cache_temp_run] at h
      cases h1 : cache_temp_tick s0 f with
      | error e => rw [h1] at h; simp at h
      | ok s1 =>
        rw [h1] at h
        cases fs with
        | nil =>
          simp only [cache_temp_run, Except.ok.injEq] at h
          subst h
          exact single s0 s1 f (Or.inl h1)
        | cons g gs => exact ih s1 s h (by simp)
  exact fun fs s h hne => general fs initState s h hne

/-- C7 witness: the trace part of the theorem applied to the one-tick
run with reading 70 °F. -/
theorem C7_min_le_latest_le_max_witness :
    ({ temp_f_latest := 70, temp_f_min := 70, temp_f_max := 70,
       thresh_times := [0, 0, 0, 1, 0],
       thresh_led_states := [false, false, false, true, false] } : PicoState).temp_f_min ≤
      ({ temp_f_latest := 70, temp_f_min := 70, temp_f_max := 70,
         thresh_times := [0, 0, 0, 1, 0],
         thresh_led_states := [false, false, false, true, false] } : PicoState).temp_f_latest ∧
    ({ temp_f_latest := 70, temp_f_min := 70, temp_f_max := 70,
       thresh_times := [0, 0, 0, 1, 0],
       thresh_led_states := [false, false, false, true, false] } : PicoState).temp_f_latest ≤
      ({ temp_f_latest := 70, temp_f_min := 70, temp_f_max := 70,
         thresh_times := [0, 0, 0, 1, 0],
         thresh_led_states := [false, false, false, true, false] } : PicoState).temp_f_max :=
  C7_min_le_latest_le_max.2 [70] _ (by decide) (by decide)

/-- Python runtime value as far as the led loop of src/main.py lines
166-169 is concerned: an `int`, or a `Pin` object identified by its
position in `thresh_leds`. -/
inductive PyVal where
  | int (n : ℤ)
  | pin (id : ℕ)
deriving DecidableEq, Repr

/-- The call `x.value(b)`: writes the level on a `Pin` (modelled as
returning the pin position and the level), and raises
`AttributeError` when `x` is an `int`. -/
def pin_value_call : PyVal → Bool → Except String (ℕ × Bool)
  | .pin i, b => .ok (i, b)
  | .int _, _ => .error "AttributeError"

/-- The Python comparison `idx == on_idx` with `on_idx` an `int`:
integer equality, and `False` when `idx` is a `Pin` (no `__eq__`, so
identity comparison with an `int` is always false). -/
def py_eq_int : PyVal → ℤ → Bool
  | .int n, m => n == m
  | .pin _, _ => false

/-- The pairs bound by `for led,idx in enumerate(thresh_leds)` in
src/main.py line 166: `enumerate` yields (position, element), and the
loop unpacks them in that order into the names `led` and `idx`, so
`led` is bound to the integer position and `idx` to the `Pin`. -/
def main_enumerate_pairs : List (PyVal × PyVal) :=
  (List.range 5).map (fun i => (PyVal.int (Int.ofNat i), PyVal.pin i))

/-- The led loop body of src/main.py lines 166-169, over `thresh_times`
and the band led levels: each step runs `led.value(idx==on_idx)` and
then, when `idx == on_idx`, increments `thresh_times[idx]`. A raise
carries the message together with the lists as mutated so far. -/
def main_led_loop : List (PyVal × PyVal) → ℤ → List ℕ → List Bool →
    Except (String × List ℕ × List Bool) (List ℕ × List Bool)
  | [], _, ts, ls => .ok (ts, ls)
  | (led, idx) :: rest, onIdx, ts, ls =>
    match pin_value_call led (py_eq_int idx onIdx) with
    | .error msg => .error (msg, ts, ls)
    | .ok (p, b) =>
      let ls1 := ls.set p b
      if py_eq_int idx onIdx then
        match idx with
        | .int k => main_led_loop rest onIdx (ts.set k.toNat (ts.getD k.toNat 0 + 1)) ls1
        | .pin _ => .error ("TypeError", ts, ls1)
      else main_led_loop rest onIdx ts ls1

/-- One iteration of `cache_temp` in src/main.py lines 142-172: like
`cache_temp_tick`, except that the led/counter loop is the
variant of src/main.py line 166 with the swapped `enumerate` unpack. -/
def cache_temp_tick_main (s : PicoState) (f : ℚ) : Except PicoState PicoState :=
  let s1 : PicoState :=
    { s with temp_f_latest := f
             temp_f_min := min s.temp_f_min f
             temp_f_max := max s.temp_f_max f }
  match on_idx? f with
  | none => .error s1
  | some on_idx =>
    match main_led_loop main_enumerate_pairs (on_idx : ℤ) s1.thresh_times s1.thresh_led_states with
    | .error (_, ts, ls) => .error { s1 with thresh_times := ts, thresh_led_states := ls }
    | .ok (ts, ls) => .ok { s1 with thresh_times := ts, thresh_led_states := ls }

/-- C6. In src/main.py the claim fails on every classified tick: the
loop `for led,idx in enumerate(thresh_leds)` binds `led` to the integer
position, so `led.value(idx==on_idx)` raises `AttributeError` on the
very first iteration; `thresh_times` is never incremented (and even
disregarding the raise, `idx == on_idx` compares a `Pin` with an `int`
and is always false). Concretely: 70 °F classifies to band 3, yet the
tick of src/main.py dies with every entry of `thresh_times` still 0 —
and in general every tick of src/main.py raises without ever touching
`thresh_times`, so `band_seconds[i]` never increases by the sampling
period as claimed. (src/temperature_logger.py lines 166-169, with the
correct `for idx in range(len(thresh_leds))` loop, does behave as the
claim states.) -/
theorem C6_main_tick_raises_and_never_increments :
    on_idx? 70 = some 3 ∧
    cache_temp_tick_main initState 70 =
      .error { temp_f_latest := 70, temp_f_min := 70, temp_f_max := 70,
               thresh_times := [0, 0, 0, 0, 0],
               thresh_led_states := [false, false, false, false, false] } ∧
    ∀ (s : PicoState) (f : ℚ), ∃ e, cache_temp_tick_main s f = .error e ∧
        e.thresh_times = s.thresh_times := by
  refine ⟨by decide, by decide, fun s f => ?_⟩
  have hp : main_enumerate_pairs =
      [(PyVal.int 0, PyVal.pin 0), (PyVal.int 1, PyVal.pin 1), (PyVal.int 2, PyVal.pin 2),
       (PyVal.int 3, PyVal.pin 3), (PyVal.int 4, PyVal.pin 4)] := by decide
  cases hi : on_idx? f with
  | none =>
    refine ⟨{ s with
        temp_f_latest := f
        temp_f_min := min s.temp_f_min f
        temp_f_max := max s.temp_f_max f }, ?_, rfl⟩
    simp [cache_temp_tick_main, hi]
  | some i =>
    refine ⟨{ s with
        temp_f_latest := f
        temp_f_min := min s.temp_f_min f
        temp_f_max := max s.temp_f_max f }, ?_, rfl⟩
    simp [cache_temp_tick_main, hi, hp, main_led_loop, pin_value_call]

/-- Dwell-time formatter `format_times` of src/main.py lines 88-105,
taken as a function of the seconds value read from `thresh_times`: the
`divmod` chain decomposes seconds → minutes → hours → days → weeks, and
rendering prefixes each non-zero unit (with a trailing space) in front
of the always-present seconds part. -/
def format_times (seconds0 : ℕ) : String :=
  let minutes := seconds0 / 60
  let seconds := seconds0 % 60
  let hours := minutes / 60
  let minutes := minutes % 60
  let days := hours / 24
  let hours := hours % 24
  let weeks := days / 7
  let days := days % 7
  let out := toString seconds ++ " secs"
  let out := if minutes > 0 then toString minutes ++ " mins " ++ out else out
  let out := if hours > 0 then toString hours ++ " hours " ++ out else out
  let out := if days > 0 then toString days ++ " days " ++ out else out
  let out := if weeks > 0 then toString weeks ++ " weeks " ++ out else out
  out

/-- Rendered unit words as the spec describes them: the non-zero higher
units largest first, each suffixed with its unit name, and the seconds
remainder always present. Written from the spec's words for the
refinement proof below. -/
def dwell_units (seconds0 : ℕ) : List String :=
  let minutes := seconds0 / 60
  let seconds := seconds0 % 60
  let hours := minutes / 60
  let minutes := minutes % 60
  let days := hours / 24
  let hours := hours % 24
  let weeks := days / 7
  let days := days % 7
  (if weeks > 0 then [toString weeks ++ " weeks"] else []) ++
  (if days > 0 then [toString days ++ " days"] else []) ++
  (if hours > 0 then [toString hours ++ " hours"] else []) ++
  (if minutes > 0 then [toString minutes ++ " mins"] else []) ++
  [toString seconds ++ " secs"]

/-- Concatenation with single spaces between the parts, from the spec's
words. -/
def join_spaced : List String → String
  | [] => ""
  | [x] => x
  | x :: y :: xs => x ++ " " ++ join_spaced (y :: xs)

theorem weeks_sp (u : String) : " weeks" ++ (" " ++ u) = " weeks " ++ u := by
  have h : (" weeks" ++ " " : String) = " weeks " := rfl
  rw [← String.append_assoc, h]

theorem days_sp (u : String) : " days" ++ (" " ++ u) = " days " ++ u := by
  have h : (" days" ++ " " : String) = " days " := rfl
  rw [← String.append_assoc, h]

theorem hours_sp (u : String) : " hours" ++ (" " ++ u) = " hours " ++ u := by
  have h : (" hours" ++ " " : String) = " hours " := rfl
  rw [← String.append_assoc, h]

theorem mins_sp (u : String) : " mins" ++ (" " ++ u) = " mins " ++ u := by
  have h : (" mins" ++ " " : String) = " mins " := rfl
  rw [← String.append_assoc, h]

/-- C5. For every non-negative seconds value, `format_times` renders
exactly the unit words of the successive-division decomposition —
non-zero higher units only, largest first, seconds remainder always —
joined with single spaces; and the four pinned examples hold. -/
theorem C5_format_times_joins_units_with_single_spaces :
    (∀ n : ℕ, format_times n = join_spaced (dwell_units n)) ∧
    format_times 0 = "0 secs" ∧
    format_times 59 = "59 secs" ∧
    format_times 60 = "1 mins 0 secs" ∧
    format_times 90061 = "1 days 1 hours 1 mins 1 secs" := by
  refine ⟨?_, rfl, rfl, rfl, rfl⟩
  intro n
  simp only [format_times, dwell_units]
  split_ifs <;>
    simp [join_spaced, String.append_assoc, weeks_sp, days_sp, hours_sp, mins_sp]

/-- Handlers reachable from `get_route` (src/main.py lines 113-124). -/
inductive Handler where
  | index_page
  | led_on
  | led_off
  | garden_temp_page
  | not_found
deriving DecidableEq, Repr

/-- Route resolution of `get_route` (src/main.py lines 113-124): a
dictionary keyed by literal path strings, with `paths['/notfound']`
returned whenever the path is not a key. -/
def get_route (path : String) : Handler :=
  if path = "/" then .index_page
  else if path = "/method=%22post%22?toggle_led=On" then .led_on
  else if path = "/method=%22post%22?toggle_led=Off" then .led_off
  else if path = "/garden_temps" then .garden_temp_page
  else if path = "/notfound" then .not_found
  else .not_found

/-- C8. Route resolution is exact string comparison: the four literal
paths resolve to their handlers, and every other path string falls back
to `not_found` (including `/notfound` itself, which is a dictionary key
bound to the same fallback handler). -/
theorem C8_routes_are_exact_string_matches :
    get_route "/" = .index_page ∧
    get_route "/garden_temps" = .garden_temp_page ∧
    get_route "/method=%22post%22?toggle_led=On" = .led_on ∧
    get_route "/method=%22post%22?toggle_led=Off" = .led_off ∧
    ∀ p : String,
      p ∉ (["/", "/method=%22post%22?toggle_led=On", "/method=%22post%22?toggle_led=Off",
            "/garden_temps"] : List String) →
      get_route p = .not_found := by
  refine ⟨rfl, rfl, rfl, rfl, fun p hp => ?_⟩
  unfold get_route
  split_ifs with h1 h2 h3 h4 h5
  · subst h1; exact absurd (by decide) hp
  · subst h2; exact absurd (by decide) hp
  · subst h3; exact absurd (by decide) hp
  · subst h4; exact absurd (by decide) hp
  · rfl
  · rfl

/-- C8 witness: the fallback conjunct applied at the path
"/nonexistent". -/
theorem C8_routes_are_exact_string_matches_witness :
    get_route "/nonexistent" = .not_found :=
  C8_routes_are_exact_string_matches.2.2.2.2 "/nonexistent" (by decide)

/-- A line of an HTTP request, as the list of its characters. -/
abbrev Line := List Char

/-- The empty line terminating the request head. -/
def crlf : Line := ['\r', '\n']

/-- Python `str.split(sep)` with a one-character separator: split at
every occurrence of the separator, preserving empty fields (this is
what `req.split(" ")` does in src/main.py line 283). -/
def split_on_char (sep : Char) : Line → List Line
  | [] => [[]]
  | c :: rest =>
    let r := split_on_char sep rest
    if c = sep then [] :: r
    else
      match r with
      | [] => [[c]]
      | g :: gs => (c :: g) :: gs

/-- Does the pattern occur at the start of the text. -/
def starts_with_seq : Line → Line → Bool
  | [], _ => true
  | _ :: _, [] => false
  | p :: ps, c :: cs => (p = c) && starts_with_seq ps cs

/-- Python `pat in text` on strings: substring containment. -/
def contains_seq (pat : Line) : Line → Bool
  | [] => starts_with_seq pat []
  | c :: rest => starts_with_seq pat (c :: rest) || contains_seq pat rest

/-- The version marker looked for in src/main.py line 282. -/
def http_marker : Line := "HTTP/1.1".toList

/-- The request-line loop of `handle_client` (src/main.py lines
277-286): lines are read until the line "\r\n" has been processed;
every line containing "HTTP/1.1" is split on the space character and
overwrites `method` (token 0) and `path` (token 1). `none` models the
two ways the loop never delivers a result: the reader runs out of lines
(the `while` then reads empty strings forever), or a marker line has no
token 1 and `req_type[1]` raises `IndexError`. -/
def handle_client_parse : List Line → Line → Line → Option (Line × Line)
  | [], _, _ => none
  | req :: rest, method, path =>
    if contains_seq http_marker req then
      match (split_on_char ' ' req).get? 0, (split_on_char ' ' req).get? 1 with
      | some m, some p => if req = crlf then some (m, p) else handle_client_parse rest m p
      | _, _ => none
    else if req = crlf then some (method, path)
    else handle_client_parse rest method path

/-- Marker lines among the lines read: the lines before the
terminating "\r\n" that contain "HTTP/1.1". -/
def marker_lines (lines : List Line) : List Line :=
  (lines.takeWhile (fun l => decide (l ≠ crlf))).filter (contains_seq http_marker)

/-- Extraction as the amended claim words it: method and path are the
first two space-separated tokens of the last marker line read before
the blank line, or the initial values when no marker line occurs. -/
def last_marker_extract (lines : List Line) (method path : Line) : Line × Line :=
  match (marker_lines lines).getLast? with
  | none => (method, path)
  | some l => (((split_on_char ' ' l).get? 0).getD [], ((split_on_char ' ' l).get? 1).getD [])

/-- Extraction as the original claim words it: method and path come
from the first line containing the marker. Written from the claim's
words, for the counterexample below. -/
def first_marker_extract (lines : List Line) (method path : Line) : Line × Line :=
  match (marker_lines lines).head? with
  | none => (method, path)
  | some l => (((split_on_char ' ' l).get? 0).getD [], ((split_on_char ' ' l).get? 1).getD [])

/-- Unfolding of `marker_lines` over one read line. -/
theorem marker_lines_cons (l : Line) (rest : List Line) :
    marker_lines (l :: rest) =
      if l = crlf then []
      else if contains_seq http_marker l then l :: marker_lines rest
      else marker_lines rest := by
  by_cases hc : l = crlf
  · simp [marker_lines, hc]
  · by_cases hm : contains_seq http_marker l
    · simp [marker_lines, hc, hm]
    · simp [marker_lines, hc, hm]

/-- C4 counterexample. A stream whose first marker line is
"GET / HTTP/1.1" followed by a second marker line "A B HTTP/1.1" before
the blank line: the handler's loop overwrites method and path with
every marker line, so it delivers ("A", "B") — the tokens of the last
marker line — not ("GET", "/") as extraction from the first marker line
would give. -/
theorem C4_counterexample :
    handle_client_parse
        ["GET / HTTP/1.1\r\n".toList, "A B HTTP/1.1\r\n".toList, crlf] [] [] =
      some ("A".toList, "B".toList) ∧
    first_marker_extract
        ["GET / HTTP/1.1\r\n".toList, "A B HTTP/1.1\r\n".toList, crlf] [] [] =
      ("GET".toList, "/".toList) ∧
    (("A".toList, "B".toList) : Line × Line) ≠ ("GET".toList, "/".toList) := by
  refine ⟨by decide, by decide, by decide⟩

/-- C4 amended. Whenever the request-line loop delivers a result,
method and path are the first two space-separated tokens of the LAST
line containing the "HTTP/1.1" marker among the lines read before the
empty line "\r\n" (each marker line overwrites the previous
extraction); lines lacking the marker are skipped without rejecting the
request, and reading stops at "\r\n". -/
theorem C4_parse_extracts_from_last_marker_line :
    ∀ (lines : List Line) (method path : Line) (r : Line × Line),
      handle_client_parse lines method path = some r →
      r = last_marker_extract lines method path := by
  intro lines
  induction lines with
  | nil => intro method path r h; simp [handle_client_parse] at h
  | cons l rest ih =>
    intro method path r h
    by_cases hm : contains_seq http_marker l
    · have hne : l ≠ crlf := by
        intro he
        rw [he] at hm
        exact absurd hm (by decide)
      simp only [handle_client_parse, hm, if_true] at h
      cases hg0 : (split_on_char ' ' l).get? 0 with
      | none => rw [hg0] at h; simp at h
      | some m2 =>
        cases hg1 : (split_on_char ' ' l).get? 1 with
        | none => rw [hg0, hg1] at h; simp at h
        | some p2 =>
          rw [hg0, hg1] at h
          simp only [hne, if_false, if_neg hne] at h
          have hr := ih m2 p2 r h
          rw [hr]
          simp only [last_marker_extract, marker_lines_cons, hne, hm, if_false, if_true,
            if_neg hne]
          cases hml : marker_lines rest with
          | nil =>
            simp only [List.get?_eq_getElem?] at hg0 hg1
            simp [List.getLast?, hg0, hg1]
          | cons x xs =>
            have hy : (x :: xs).getLast? = some ((x :: xs).getLast (by simp)) :=
              List.getLast?_eq_getLast _ (by simp)
            rw [List.getLast?_cons_cons, hy]
    · simp only [handle_client_parse, hm, Bool.false_eq_true, if_false] at h
      by_cases hc : l = crlf
      · rw [if_pos hc] at h
        simp only [Option.some.injEq] at h
        subst h
        simp [last_marker_extract, marker_lines_cons, hc]
      · rw [if_neg hc] at h
        have hr := ih method path r h
        rw [hr]
        simp [last_marker_extract, marker_lines_cons, hc, hm]

/-- C4 witness: the amended theorem applied to the ordinary one-request
stream "GET / HTTP/1.1" followed by the blank line. -/
theorem C4_parse_extracts_from_last_marker_line_witness :
    (("GET".toList, "/".toList) : Line × Line) =
      last_marker_extract ["GET / HTTP/1.1\r\n".toList, crlf] [] [] :=
  C4_parse_extracts_from_last_marker_line ["GET / HTTP/1.1\r\n".toList, crlf] [] []
    ("GET".toList, "/".toList) (by decide)

/-- State shared by the three duties of `main_loop` (src/main.py lines
297-305): the heartbeat counter `watchdog_val` with its led, the
http-connection led toggled by the `blink_led` decorator of
`handle_client`, the user led written by the `led_on`/`led_off`
handlers, and the sampler state. -/
structure SysState where
  watchdog_val : ℕ
  watchdog_led : Bool
  http_connection_led : Bool
  user_led : Bool
  pico : PicoState
deriving DecidableEq, Repr

/-- One scheduled slice of one duty, the unit between two suspension
points of the cooperative scheduler: a heartbeat cycle of
`watchdog_loop`, a sampling tick of `cache_temp` at the fahrenheit
value read, or the handling of one client connection given the lines
the client sent. -/
inductive Duty where
  | heartbeat
  | sampling (f : ℚ)
  | http (lines : List Line)
deriving DecidableEq, Repr

/-- Sampler state visible after one src/main.py tick whether or not it
raises: a raise kills the duty, but the mutations made before the raise
stay visible to the other duties. -/
def tick_result (s : PicoState) (f : ℚ) : PicoState :=
  match cache_temp_tick_main s f with
  | .ok s1 => s1
  | .error e => e

/-- User-led level after the routed handler ran: `led_on` writes 1,
`led_off` writes 0, the other handlers leave it as it was. -/
def routed_user_led (h : Handler) (old : Bool) : Bool :=
  match h with
  | .led_on => true
  | .led_off => false
  | _ => old

/-- State effect of `handle_client` (src/main.py lines 274-288) on one
connection: the `blink_led` decorator toggles the connection led; when
the request-line loop delivers a path, the routed handler runs, and of
the handlers only `led_on` and `led_off` write state (the user led) —
the others only render HTML from the shared state. -/
def handle_client_state (g : SysState) (lines : List Line) : SysState :=
  let g1 := { g with http_connection_led := !g.http_connection_led }
  match handle_client_parse lines [] [] with
  | none => g1
  | some (_, p) =>
    { g1 with user_led := routed_user_led (get_route (String.mk p)) g1.user_led }

/-- One slice of one duty. The heartbeat duty (src/main.py lines 83-86
and 107-111) toggles its led via `blink_led` and increments
`watchdog_val` by one. -/
def duty_step (g : SysState) : Duty → SysState
  | .heartbeat =>
      { g with watchdog_led := !g.watchdog_led, watchdog_val := g.watchdog_val + 1 }
  | .sampling f => { g with pico := tick_result g.pico f }
  | .http lines => handle_client_state g lines

/-- An interleaving of the three duties: their slices in the order the
cooperative scheduler ran them. -/
def run_duties (g : SysState) : List Duty → SysState
  | [] => g
  | d :: ds => run_duties (duty_step g d) ds

/-- Connection handling never writes the heartbeat counter. -/
theorem handle_client_state_watchdog (g : SysState) (lines : List Line) :
    (handle_client_state g lines).watchdog_val = g.watchdog_val := by
  simp only [handle_client_state]
  rcases hp : handle_client_parse lines [] [] with - | ⟨m, p⟩
  · rfl
  · rfl

/-- C9. The heartbeat counter increases by exactly one on every
heartbeat cycle, no slice of the sampling or http duty ever writes it,
and along every interleaving of the three duties' slices it never
decreases. -/
theorem C9_heartbeat_counter_increments_and_never_decreases :
    (∀ g : SysState, (duty_step g .heartbeat).watchdog_val = g.watchdog_val + 1) ∧
    (∀ (g : SysState) (f : ℚ), (duty_step g (.sampling f)).watchdog_val = g.watchdog_val) ∧
    (∀ (g : SysState) (lines : List Line),
        (duty_step g (.http lines)).watchdog_val = g.watchdog_val) ∧
    (∀ (g : SysState) (ds : List Duty), g.watchdog_val ≤ (run_duties g ds).watchdog_val) := by
  refine ⟨fun g => rfl, fun g f => rfl,
    fun g lines => handle_client_state_watchdog g lines, ?_⟩
  intro g ds
  induction ds generalizing g with
  | nil => exact le_refl _
  | cons d ds ih =>
    refine le_trans ?_ (ih (duty_step g d))
    cases d with
    | heartbeat => exact Nat.le_succ _
    | sampling f => exact le_of_eq rfl
    | http lines => exact le_of_eq (handle_client_state_watchdog g lines).symm

end PicoTemp
